import Mathlib

/-
  Verification development for the video streaming proxy server (src/app.py).
  Strings are modelled as lists of characters; every Python string operation
  the handlers use is embedded as a structurally recursive Lean function, so
  that all definitions are executable and concrete runs reduce by kernel
  computation.
-/

namespace StreamProxy

/-- Python strings are modelled as lists of characters. -/
abbrev Str := List Char

/-- Characters Python's str.strip() removes (ASCII whitespace). -/
def pySpace (c : Char) : Bool :=
  c = ' ' || c = '\t' || c = '\n' || c = '\r' || c = '\x0b' || c = '\x0c'

/-- Models Python str.strip(): drop whitespace from both ends. -/
def pyStrip (s : Str) : Str :=
  ((s.dropWhile pySpace).reverse.dropWhile pySpace).reverse

/-- Models Python str.lower() for the characters appearing in URLs. -/
def pyLower (s : Str) : Str := s.map Char.toLower

/-- Models Python str.split(sep) for a one-character separator: keeps empty
pieces and always returns at least one piece. -/
def splitOnChar (sep : Char) : Str → List Str
  | [] => [[]]
  | c :: cs =>
    if c = sep then [] :: splitOnChar sep cs
    else
      match splitOnChar sep cs with
      | [] => [[c]]
      | l :: ls => (c :: l) :: ls

/-- Models Python sep.join(pieces) for a one-character separator. -/
def joinChar (sep : Char) : List Str → Str
  | [] => []
  | [l] => l
  | l :: ls => l ++ sep :: joinChar sep ls

/-- Models the Python substring test `needle in hay`. -/
def isSubstr (needle : Str) : Str → Bool
  | [] => needle.isEmpty
  | c :: cs => needle.isPrefixOf (c :: cs) || isSubstr needle cs

/-- Digit-string value accumulator for pyInt. -/
def digitsVal (ds : Str) : Nat :=
  ds.foldl (fun acc c => acc * 10 + (c.toNat - '0'.toNat)) 0

/-- Models Python int(str) on decimal literals: optional surrounding
whitespace, optional sign, at least one digit; anything else raises
ValueError, modelled as none. -/
def pyInt (s : Str) : Option Int :=
  let t := pyStrip s
  match t with
  | '-' :: ds => if !ds.isEmpty && ds.all Char.isDigit then some (-(digitsVal ds : Int)) else none
  | '+' :: ds => if !ds.isEmpty && ds.all Char.isDigit then some ((digitsVal ds : Int)) else none
  | ds => if !ds.isEmpty && ds.all Char.isDigit then some ((digitsVal ds : Int)) else none

/- ------------------------------------------------------------------
   URL parsing: models the fragment of urllib.parse used by app.py.
   ------------------------------------------------------------------ -/

/-- Characters allowed in a URL scheme after the initial letter
(urllib.parse.scheme_chars). -/
def isSchemeChar (c : Char) : Bool :=
  c.isAlpha || c.isDigit || c = '+' || c = '-' || c = '.'

/-- Models the scheme detection of urllib.parse.urlsplit: a non-empty prefix
before the first colon that starts with a letter and contains only scheme
characters; returns the lowercased scheme and the remainder after the colon. -/
def schemeSplit (u : Str) : Option (Str × Str) :=
  let pre := u.takeWhile (fun c => c ≠ ':')
  match u.drop pre.length with
  | ':' :: rest =>
    match pre with
    | [] => none
    | c :: cs => if c.isAlpha && cs.all isSchemeChar then some (pyLower pre, rest) else none
  | _ => none

/-- Scheme (possibly empty) and the remainder of the URL after the scheme. -/
def urlSchemeRest (u : Str) : Str × Str :=
  match schemeSplit u with
  | some (s, rest) => (s, rest)
  | none => ([], u)

/-- Characters ending the netloc component in urlsplit. -/
def isNetlocEnd (c : Char) : Bool := c = '/' || c = '?' || c = '#'

/-- Models urlsplit netloc extraction: present only when the remainder after
the scheme starts with two slashes; runs up to the next slash, question mark
or hash. Returns the netloc and what follows it. -/
def netlocSplit (rest : Str) : Str × Str :=
  match rest with
  | '/' :: '/' :: after =>
    let n := after.takeWhile (fun c => !isNetlocEnd c)
    (n, after.drop n.length)
  | r => ([], r)

/-- The scheme of a URL, per the urlparse model. -/
def urlScheme (u : Str) : Str := (urlSchemeRest u).1

/-- The netloc (authority) of a URL, per the urlparse model. -/
def urlNetloc (u : Str) : Str := (netlocSplit (urlSchemeRest u).2).1

/-- Path together with query and fragment, per the urlparse model. -/
def urlPathQF (u : Str) : Str := (netlocSplit (urlSchemeRest u).2).2

/-- The path of a URL (everything after the netloc, cut at query/fragment). -/
def urlPath (u : Str) : Str :=
  (urlPathQF u).takeWhile (fun c => c ≠ '?' && c ≠ '#')

/-- Models the bracket check urlsplit performs on the netloc: a square
bracket without its partner makes urlparse raise ValueError. -/
def bracketMismatch (n : Str) : Bool :=
  (n.contains '[' && !n.contains ']') || (n.contains ']' && !n.contains '[')

/-- The substring of a netloc after its last at sign (rpartition), i.e. the
host-and-port part with userinfo removed. -/
def afterLastAt (n : Str) : Str := (n.reverse.takeWhile (fun c => c ≠ '@')).reverse

/-- Models the hostname property of a parse result for non-bracketed hosts:
strip userinfo, cut at the port colon, lowercase. -/
def urlHost (u : Str) : Str :=
  pyLower ((afterLastAt (urlNetloc u)).takeWhile (fun c => c ≠ ':'))

/-- Embeds is_valid_url (src/app.py, lines 41 to 50): empty input is refused;
a urlparse ValueError (mismatched netloc brackets) is caught and refused;
otherwise the check is scheme in (http, https) and truthy netloc. -/
def is_valid_url (u : Str) : Bool :=
  if u.isEmpty then false
  else if bracketMismatch (urlNetloc u) then false
  else ((urlScheme u == "http".toList) || (urlScheme u == "https".toList))
        && !(urlNetloc u).isEmpty

/-- Embeds is_hls_url (src/app.py, line 53): lowercased URL ends in .m3u8. -/
def is_hls_url (u : Str) : Bool := ".m3u8".toList.isSuffixOf (pyLower u)

/- ------------------------------------------------------------------
   urljoin: models urllib.parse.urljoin for http(s) URLs whose
   references carry no query or fragment component (the playlist URI
   shapes this proxy handles).
   ------------------------------------------------------------------ -/

/-- Models the deletion of the last base-path segment when it is non-empty
(the base path's file part does not take part in relative resolution). -/
def popLastIfNonempty (ps : List Str) : List Str :=
  match ps.getLast? with
  | some l => if l.isEmpty then ps else ps.dropLast
  | none => ps

/-- Models the filtering of empty interior segments urljoin performs before
resolving dot segments (keeps the first and last segment as they are). -/
def filterMiddle (segs : List Str) : List Str :=
  match segs with
  | [] => []
  | [a] => [a]
  | a :: rest =>
    match rest.getLast?, rest.dropLast with
    | some z, mid => a :: (mid.filter (fun s => !s.isEmpty) ++ [z])
    | none, _ => [a]

/-- Models urljoin's resolution of `.` and `..` path segments: a fold that
pops on `..` (ignoring pops past the start) and skips `.`, with a trailing
empty segment appended when the path ends in a dot segment. -/
def dotsResolved (segs : List Str) : List Str :=
  let r := segs.foldl
    (fun acc seg =>
      if seg = "..".toList then acc.dropLast
      else if seg = ".".toList then acc
      else acc ++ [seg]) ([] : List Str)
  match segs.getLast? with
  | some l => if l = "..".toList ∨ l = ".".toList then r ++ [[]] else r
  | none => r

/-- Models urlunsplit restricted to scheme, netloc and path. -/
def urlunsplit3 (scheme netloc path : Str) : Str :=
  let p := if !netloc.isEmpty && !path.isEmpty && path.head? != some '/'
           then '/' :: path else path
  let u := if !netloc.isEmpty || ("//".toList.isPrefixOf p)
           then "//".toList ++ netloc ++ p else p
  if scheme.isEmpty then u else scheme ++ ':' :: u

/-- Models urllib.parse.urljoin for http(s) URLs without query or fragment
components: an unrelated-scheme reference is returned as is, a reference
with its own netloc replaces authority and path, an empty path keeps the
base path, a rooted path replaces it, and a relative path is appended to
the base path's directory with empty interior segments dropped and dot
segments resolved. -/
def urljoin (base url : Str) : Str :=
  if base.isEmpty then url
  else if url.isEmpty then base
  else
    let (bscheme, brest) := urlSchemeRest base
    let (bnetloc, bpath) := netlocSplit brest
    let (uscheme, urest) :=
      match schemeSplit url with
      | some (s, r) => (s, r)
      | none => (bscheme, url)
    if uscheme ≠ bscheme then url
    else
      let (unetloc, upath) := netlocSplit urest
      if !unetloc.isEmpty then urlunsplit3 uscheme unetloc upath
      else if upath.isEmpty then urlunsplit3 uscheme bnetloc bpath
      else
        let segments :=
          if upath.head? = some '/' then splitOnChar '/' upath
          else filterMiddle (popLastIfNonempty (splitOnChar '/' bpath)
                              ++ splitOnChar '/' upath)
        let rp := joinChar '/' (dotsResolved segments)
        urlunsplit3 uscheme bnetloc (if rp.isEmpty then "/".toList else rp)

/- ------------------------------------------------------------------
   Percent encoding: models requests.utils.quote(s, safe=...) with an
   empty safe set, i.e. urllib.parse.quote over the UTF-8 bytes.
   ------------------------------------------------------------------ -/

/-- Uppercase hexadecimal digit for a value below 16. -/
def hexDigitChar (n : Nat) : Char :=
  if n < 10 then Char.ofNat ('0'.toNat + n) else Char.ofNat ('A'.toNat + n - 10)

/-- Bytes urllib.parse.quote leaves unescaped: ASCII letters, digits, and
underscore, dot, hyphen, tilde. -/
def isUnreservedByte (b : Nat) : Bool :=
  (65 ≤ b && b ≤ 90) || (97 ≤ b && b ≤ 122) || (48 ≤ b && b ≤ 57)
    || b = 95 || b = 46 || b = 45 || b = 126

/-- Percent encoding of one byte. -/
def quoteByte (b : Nat) : Str :=
  if isUnreservedByte b then [Char.ofNat b]
  else ['%', hexDigitChar (b / 16), hexDigitChar (b % 16)]

/-- The UTF-8 bytes of one character. -/
def utf8Bytes (c : Char) : List Nat :=
  let n := c.toNat
  if n < 128 then [n]
  else if n < 2048 then [192 + n / 64, 128 + n % 64]
  else if n < 65536 then [224 + n / 4096, 128 + (n / 64) % 64, 128 + n % 64]
  else [240 + n / 262144, 128 + (n / 4096) % 64, 128 + (n / 64) % 64, 128 + n % 64]

/-- Models requests.utils.quote(s, safe set empty): percent-encode every
UTF-8 byte outside the unreserved set, uppercase hex. -/
def pyQuote (s : Str) : Str :=
  ((s.map utf8Bytes).flatten.map quoteByte).flatten

/- ------------------------------------------------------------------
   Data model: the m3u8 library's parse output and the dictionaries
   app.py builds from it, plus the upstream environment.
   ------------------------------------------------------------------ -/

/-- One EXT-X-STREAM-INF entry as the m3u8 library exposes it
(variant.uri, variant.stream_info.bandwidth / resolution / audio). -/
structure M3U8Variant where
  uri : Str
  bandwidth : Option Nat
  resolution : Option (Nat × Nat)
  audio : Option Str
deriving DecidableEq

/-- One EXT-X-MEDIA entry as the m3u8 library exposes it. -/
structure M3U8Media where
  type : Str
  language : Option Str
  name : Option Str
  uri : Option Str
  group_id : Option Str
deriving DecidableEq

/-- The result of m3u8.loads: the variant entries and the media entries. -/
structure M3U8Playlist where
  playlists : List M3U8Variant
  media : List M3U8Media
deriving DecidableEq

/-- The variant dictionary parse_hls_playlist builds (src/app.py,
lines 107 to 112): resolved url, bandwidth, resolution, audio group id. -/
structure Variant where
  url : Str
  bandwidth : Option Nat
  resolution : Option (Nat × Nat)
  audio : Option Str
deriving DecidableEq

/-- The audio-track dictionary parse_hls_playlist builds. -/
structure AudioTrack where
  language : Option Str
  name : Option Str
  uri : Option Str
  group_id : Option Str
deriving DecidableEq

/-- The subtitle-track dictionary parse_hls_playlist builds. -/
structure SubtitleTrack where
  language : Option Str
  name : Option Str
  uri : Option Str
deriving DecidableEq

/-- The dictionary parse_hls_playlist returns (src/app.py, lines 139
to 145). -/
structure HLSInfo where
  variants : List Variant
  audio_tracks : List AudioTrack
  subtitles : List SubtitleTrack
  is_master : Bool
  master_url : Str
deriving DecidableEq

/-- An upstream HTTP response: status, the headers app.py reads, body text. -/
structure UpResp where
  status : Nat
  contentType : Option Str
  contentLength : Option Str
  contentRange : Option Str
  contentDisposition : Option Str
  body : Str
deriving DecidableEq

/-- Outcome of one requests.get / requests.head call: a response, a
requests.Timeout, or another requests.RequestException. -/
inductive FetchResult
  | ok (r : UpResp)
  | timeout
  | failure
deriving DecidableEq

/-- One ffprobe stream dictionary (the fields validate reads). -/
structure ProbeStream where
  codec_type : Option Str
  r_frame_rate : Option Str
deriving DecidableEq

/-- Parsed ffprobe JSON output (the streams list validate reads). -/
structure ProbeData where
  streams : List ProbeStream
deriving DecidableEq

/-- The upstream world a request runs against: GET and HEAD responses per
URL (and forwarded Range header for GET), the m3u8 parser (none models a
parser exception), and the ffprobe oracle (none models every failure path
of get_ffprobe_info: missing binary, timeout, non-zero exit, bad JSON). -/
structure Env where
  fetch : Str → Option Str → FetchResult
  headFetch : Str → FetchResult
  loads : Str → Option M3U8Playlist
  probe : Str → Option ProbeData

/- ------------------------------------------------------------------
   Python's stable sort: variants.sort(key=..., reverse=True) is a
   stable sort by key descending; stable sorts are extensionally
   unique, so an insertion formulation embeds it faithfully.
   ------------------------------------------------------------------ -/

/-- Insert x into a (descending) list: walk past strictly larger keys, so
equal keys keep first-seen order. -/
def insDesc (key : α → Nat) (x : α) : List α → List α
  | [] => [x]
  | y :: ys => if key x < key y then y :: insDesc key x ys else x :: y :: ys

/-- Models Python list.sort(key=k, reverse=True): a stable descending sort. -/
def pySortDesc (key : α → Nat) : List α → List α
  | [] => []
  | x :: xs => insDesc key x (pySortDesc key xs)

/-- The sort key of parse_hls_playlist (src/app.py, line 137):
v.get('bandwidth', 0) or 0, i.e. a missing or falsy bandwidth counts as 0. -/
def bwKey (v : Variant) : Nat := v.bandwidth.getD 0

/- ------------------------------------------------------------------
   parse_hls_playlist (src/app.py, lines 85 to 149).
   ------------------------------------------------------------------ -/

/-- The variant dictionary built for one playlist entry (src/app.py,
lines 107 to 112): the URI is resolved against the playlist URL. -/
def mkVariant (url : Str) (v : M3U8Variant) : Variant :=
  { url := urljoin url v.uri
    bandwidth := v.bandwidth
    resolution := v.resolution
    audio := v.audio }

/-- The audio-track dictionary built for one AUDIO media entry. -/
def mkAudioTrack (url : Str) (m : M3U8Media) : AudioTrack :=
  { language := m.language
    name := m.name
    uri := m.uri.map (urljoin url)
    group_id := m.group_id }

/-- The subtitle dictionary built for one SUBTITLES media entry. -/
def mkSubtitleTrack (url : Str) (m : M3U8Media) : SubtitleTrack :=
  { language := m.language
    name := m.name
    uri := m.uri.map (urljoin url) }

/-- Embeds parse_hls_playlist (src/app.py, lines 85 to 149). The function
catches every exception and returns None: a transport failure, a
raise_for_status on a 4xx/5xx response, or an m3u8 parse error all yield
none. On success it builds the variant dictionaries, extracts AUDIO and
SUBTITLES media entries, sorts variants by bandwidth descending, and flags
the playlist as master iff it has at least one variant. -/
def parse_hls_playlist (env : Env) (url : Str) : Option HLSInfo :=
  match env.fetch url none with
  | .timeout => none
  | .failure => none
  | .ok r =>
    if 400 ≤ r.status then none
    else
      match env.loads r.body with
      | none => none
      | some pl =>
        let variants := pySortDesc bwKey (pl.playlists.map (mkVariant url))
        some
        { variants := variants
          audio_tracks := (pl.media.filter (fun m => m.type == "AUDIO".toList)).map
            (mkAudioTrack url)
          subtitles := (pl.media.filter (fun m => m.type == "SUBTITLES".toList)).map
            (mkSubtitleTrack url)
          is_master := !variants.isEmpty
          master_url := url }

/- ------------------------------------------------------------------
   stream_hls (src/app.py, lines 411 to 494).
   ------------------------------------------------------------------ -/

/-- Models Python str(bandwidth) where bandwidth may be None. -/
def pyStrOfBandwidth (b : Option Nat) : Str :=
  match b with
  | some n => (Nat.repr n).toList
  | none => "None".toList

/-- Embeds the variant selection of stream_hls (src/app.py, lines 421 to
425): a truthy quality token selects the first variant whose stringified
bandwidth equals it exactly (None when nothing matches); a missing or empty
token selects the head of the list. -/
def selectVariant (variants : List Variant) (quality : Option Str) : Option Variant :=
  match quality with
  | some q =>
    if q.isEmpty then variants.head?
    else variants.find? (fun v => pyStrOfBandwidth v.bandwidth == q)
  | none => variants.head?

/-- Embeds the per-line rewriting of stream_hls (src/app.py, lines 449 to
458): the line is stripped; a stripped line that is non-empty and does not
start with the hash marker is replaced by the proxy path carrying the
percent-encoded absolute URL; every other line is emitted in its stripped
form. -/
def rewriteLine (url rawLine : Str) : Str :=
  let line := pyStrip rawLine
  if !line.isEmpty && !("#".toList.isPrefixOf line) then
    "/stream?url=".toList ++ pyQuote (urljoin url line)
  else line

/-- Embeds the playlist rewriting of stream_hls (src/app.py, lines 446 to
460): split on newlines, rewrite each line, join with newlines. -/
def rewritePlaylist (url content : Str) : Str :=
  joinChar '\n' ((splitOnChar '\n' content).map (rewriteLine url))

/-- The observable outcome of stream_hls: a rewritten playlist response
(status 200), a relayed binary segment (status 200), an abort with an HTTP
status, or exhaustion of the recursion fuel (the code itself has no
recursion bound; fuelOut marks runs that recurse deeper than the fuel). -/
inductive HLSResult
  | playlist (body : Str) (contentType : Str)
  | segment (contentType : Str)
  | hlsAbort (status : Nat)
  | fuelOut
deriving DecidableEq

/-- Embeds the fall-through tail of stream_hls (src/app.py, lines 431 to
490): fetch the resource (a RequestException is caught by the handler's
except clause and aborts 502), demand status 200 or 206, then either
rewrite it as a playlist (content type contains mpegurl, or URL ends in
.m3u8) or relay it as a binary segment, both with status 200. -/
def serveResource (env : Env) (url : Str) : HLSResult :=
  match env.fetch url none with
  | .timeout => .hlsAbort 502
  | .failure => .hlsAbort 502
  | .ok r =>
    if ¬(r.status = 200 ∨ r.status = 206) then .hlsAbort 502
    else
      let ct := r.contentType.getD "application/vnd.apple.mpegurl".toList
      if isSubstr "mpegurl".toList ct || ".m3u8".toList.isSuffixOf url then
        .playlist (rewritePlaylist url r.body) ct
      else .segment ct

/-- Embeds stream_hls (src/app.py, lines 411 to 494), indexed by fuel for
the unbounded recursion at line 429. A playlist that fails to parse aborts
400; a master playlist with variants selects a variant and, when one is
selected, recurses on its URL with the quality token cleared; otherwise the
resource itself is fetched and served. -/
def stream_hls (env : Env) : Nat → Str → Option Str → HLSResult
  | 0, _, _ => .fuelOut
  | fuel + 1, url, quality =>
    match parse_hls_playlist env url with
    | none => .hlsAbort 400
    | some info =>
      let selected :=
        if info.is_master && !info.variants.isEmpty then
          selectVariant info.variants quality
        else none
      match selected with
      | some v => stream_hls env fuel v.url none
      | none => serveResource env url

/- ------------------------------------------------------------------
   stream_direct (src/app.py, lines 344 to 408) and the /stream route.
   ------------------------------------------------------------------ -/

/-- Models int(headers.get('Content-Length', 0)): a missing header is the
integer 0; a present header is parsed, and a ValueError is reported as
none (the code then passes without aborting). -/
def declaredLength (h : Option Str) : Option Int :=
  match h with
  | none => some 0
  | some s => pyInt s

/-- The 10 GiB size ceiling MAX_FILE_SIZE (src/app.py, line 38). -/
def MAX_FILE_SIZE : Nat := 10 * 1024 * 1024 * 1024

/-- The pre-flight size gate shared by stream_direct (lines 370 to 377) and
download (lines 294 to 301): abort only when a declared length parses and
exceeds the ceiling. -/
def contentLengthExceeds (h : Option Str) : Bool :=
  match declaredLength h with
  | some n => decide ((MAX_FILE_SIZE : Int) < n)
  | none => false

/-- The response headers stream_direct builds (src/app.py, lines 379
to 389). -/
structure DirectHeaders where
  contentType : Str
  acceptRanges : Str
  cacheControl : Str
  contentLength : Option Str
  contentRange : Option Str
  contentDisposition : Option Str
deriving DecidableEq

/-- The observable outcome of stream_direct: a relayed body with a status
and headers, or an abort with an HTTP status. -/
inductive DirectResult
  | relay (status : Nat) (headers : DirectHeaders)
  | directAbort (status : Nat)
deriving DecidableEq

/-- The status negotiation of stream_direct (src/app.py, line 392): forward
200 and 206 exactly, and coerce every other upstream status to 200. -/
def negotiatedStatus (s : Nat) : Nat := if s = 200 ∨ s = 206 then s else 200

/-- Embeds stream_direct (src/app.py, lines 344 to 408): forward the client
Range header upstream; a Timeout aborts 504 and any other RequestException
aborts 502; a declared Content-Length above the ceiling aborts 413 before
any body is relayed; otherwise relay the body with the negotiated status,
the forwarded headers, Accept-Ranges bytes and no-cache. -/
def stream_direct (env : Env) (url : Str) (rangeHeader : Option Str) : DirectResult :=
  match env.fetch url rangeHeader with
  | .timeout => .directAbort 504
  | .failure => .directAbort 502
  | .ok r =>
    if contentLengthExceeds r.contentLength then .directAbort 413
    else
      .relay (negotiatedStatus r.status)
        { contentType := r.contentType.getD "application/octet-stream".toList
          acceptRanges := "bytes".toList
          cacheControl := "no-cache".toList
          contentLength := r.contentLength
          contentRange := r.contentRange
          contentDisposition := r.contentDisposition }

/-- The observable outcome of the /stream route. -/
inductive StreamOutcome
  | invalid
  | hls (h : HLSResult)
  | direct (d : DirectResult)
deriving DecidableEq

/-- Embeds the /stream route (src/app.py, lines 245 to 263): strip the url
parameter, abort 400 on an invalid URL, dispatch .m3u8 URLs to stream_hls
and everything else to stream_direct. -/
def stream (env : Env) (fuel : Nat) (urlParam quality rangeHeader : Option Str) :
    StreamOutcome :=
  let url := pyStrip (urlParam.getD [])
  if !is_valid_url url then .invalid
  else if is_hls_url url then .hls (stream_hls env fuel url quality)
  else .direct (stream_direct env url rangeHeader)

/- ------------------------------------------------------------------
   download (src/app.py, lines 266 to 341).
   ------------------------------------------------------------------ -/

/-- The attachment filename derivation of download (src/app.py, lines 304
to 308): last path segment, defaulting to video.mp4 when it is empty or
has no dot. -/
def dlFilename (url : Str) : Str :=
  let fn := ((splitOnChar '/' (urlPath url)).getLast?).getD []
  if fn.isEmpty || !fn.contains '.' then "video.mp4".toList else fn

/-- The observable outcome of the /download route: an attachment transfer
with its filename and the headers built at lines 311 to 318, or an abort. -/
inductive DownloadResult
  | attachment (filename : Str) (contentType : Str) (contentLength : Option Str)
  | dlAbort (status : Nat)
deriving DecidableEq

/-- Embeds the /download route (src/app.py, lines 266 to 341): strip and
validate the url parameter (400), reject HLS URLs (400), fetch without a
Range header; a Timeout aborts 504 and any other RequestException 502; a
non-200/206 status aborts 502; then a declared Content-Length above the
ceiling aborts 413; otherwise transfer the full body as an attachment. -/
def download (env : Env) (urlParam : Option Str) : DownloadResult :=
  let url := pyStrip (urlParam.getD [])
  if !is_valid_url url then .dlAbort 400
  else if is_hls_url url then .dlAbort 400
  else
    match env.fetch url none with
    | .timeout => .dlAbort 504
    | .failure => .dlAbort 502
    | .ok r =>
      if ¬(r.status = 200 ∨ r.status = 206) then .dlAbort 502
      else if contentLengthExceeds r.contentLength then .dlAbort 413
      else
        .attachment (dlFilename url)
          (r.contentType.getD "video/mp4".toList) r.contentLength

/- ------------------------------------------------------------------
   get_ffprobe_info and the /api/validate route (src/app.py, lines 58
   to 82 and 158 to 242).
   ------------------------------------------------------------------ -/

/-- Embeds get_ffprobe_info (src/app.py, lines 58 to 82): every failure
path (ffprobe missing, timeout, non-zero exit, malformed JSON) returns
None; the environment oracle abstracts the subprocess call. -/
def get_ffprobe_info (env : Env) (url : Str) : Option ProbeData := env.probe url

/-- Exceptions the embedded Python fragments can raise. -/
inductive PyExc
  | zeroDivision
  | otherExc
deriving DecidableEq

/-- Models Python eval applied to the r_frame_rate strings ffprobe emits
(src/app.py, line 221): a string of the form N/D over decimal digits
evaluates to the rational N/D when D is non-zero and raises
ZeroDivisionError when D is zero; a bare integer evaluates to itself; any
other string raises (NameError or SyntaxError). -/
def pyEvalFrameRate (s : Str) : Except PyExc Rat :=
  let num? := fun (t : Str) =>
    if !t.isEmpty && t.all Char.isDigit then some (digitsVal t) else none
  match splitOnChar '/' s with
  | [n] =>
    match num? n with
    | some nv => .ok (nv : Rat)
    | none => .error .otherExc
  | [n, d] =>
    match num? n, num? d with
    | some nv, some dv =>
      if dv = 0 then .error .zeroDivision else .ok ((nv : Rat) / (dv : Rat))
    | _, _ => .error .otherExc
  | _ => .error .otherExc

/-- The fps computation for one video stream (src/app.py, line 221):
eval(v.get('r_frame_rate', '0/1')). -/
def fpsOf (s : ProbeStream) : Except PyExc Rat :=
  pyEvalFrameRate (s.r_frame_rate.getD "0/1".toList)

/-- The observable outcome of /api/validate: success for an HLS URL,
success for a direct URL (with or without ffprobe enrichment), a 400
response, a 502 response, or an exception escaping the handler (Flask
turns it into an unclassified 500). -/
inductive ValidateResult
  | okHls (isMaster : Bool)
  | okDirect (enriched : Bool)
  | invalid (status : Nat)
  | gateway (status : Nat)
  | unhandled (e : PyExc)
deriving DecidableEq

/-- Embeds the /api/validate route (src/app.py, lines 158 to 242): strip
and validate the url (400); an HLS URL is parsed (parse failure is a 400);
a direct URL is probed with HEAD (RequestException, including Timeout, is
caught and answered 502; a non-200/206 status is a 400); then ffprobe
enrichment runs: a None probe result omits the enrichment, while a probe
result whose video streams make eval raise escapes the handler, because
its except clause catches only requests.RequestException. -/
def validate (env : Env) (urlParam : Option Str) : ValidateResult :=
  let url := pyStrip (urlParam.getD [])
  if !is_valid_url url then .invalid 400
  else if is_hls_url url then
    match parse_hls_playlist env url with
    | some info => .okHls info.is_master
    | none => .invalid 400
  else
    match env.headFetch url with
    | .timeout => .gateway 502
    | .failure => .gateway 502
    | .ok r =>
      if ¬(r.status = 200 ∨ r.status = 206) then .invalid 400
      else
        match get_ffprobe_info env url with
        | none => .okDirect false
        | some data =>
          let videoStreams := data.streams.filter
            (fun s => s.codec_type == some "video".toList)
          let audioStreams := data.streams.filter
            (fun s => s.codec_type == some "audio".toList)
          match videoStreams.mapM fpsOf with
          | .error e => .unhandled e
          | .ok _ => .okDirect (!videoStreams.isEmpty || !audioStreams.isEmpty)

/- ------------------------------------------------------------------
   /api/get-audio-variant (src/app.py, lines 513 to 555).
   ------------------------------------------------------------------ -/

/-- The JSON body returned for a variant by /api/get-audio-variant. -/
structure AVResp where
  url : Str
  bandwidth : Option Nat
  resolution : Option (Nat × Nat)
deriving DecidableEq

/-- The observable outcome of /api/get-audio-variant. -/
inductive AVResult
  | ok (r : AVResp)
  | avAbort (status : Nat)
deriving DecidableEq

/-- Embeds the try block of get_audio_variant (src/app.py, lines 522 to
551): errors carry the status of the abort raised inside the block. A
parse failure aborts 400; the first variant whose audio group equals the
requested identifier is returned; with no match the first variant is
returned unmarked; with no variants at all the block aborts 400. -/
def get_audio_variant_body (env : Env) (url audioLang : Str) : Except Nat AVResp :=
  match parse_hls_playlist env url with
  | none => .error 400
  | some info =>
    match info.variants.find? (fun v => v.audio == some audioLang) with
    | some v => .ok ⟨v.url, v.bandwidth, v.resolution⟩
    | none =>
      match info.variants with
      | v0 :: _ => .ok ⟨v0.url, v0.bandwidth, v0.resolution⟩
      | [] => .error 400

/-- Embeds the /api/get-audio-variant route (src/app.py, lines 513 to 555):
a missing or empty url or audio parameter aborts 400 before the try block;
every abort raised inside the try block is an HTTPException, hence an
Exception, so the blanket except clause catches it and aborts 502. -/
def get_audio_variant (env : Env) (urlParam audioParam : Option Str) : AVResult :=
  let url := pyStrip (urlParam.getD [])
  let audioLang := pyStrip (audioParam.getD [])
  if url.isEmpty || audioLang.isEmpty then .avAbort 400
  else
    match get_audio_variant_body env url audioLang with
    | .ok r => .ok r
    | .error _ => .avAbort 502

/- ------------------------------------------------------------------
   Concrete upstream worlds used to run the handlers on explicit
   inputs.
   ------------------------------------------------------------------ -/

/-- A direct video URL used by the concrete runs. -/
def dUrl : Str := "http://h/v.mp4".toList

/-- A master playlist URL used by the concrete runs. -/
def mUrl : Str := "http://h/m.m3u8".toList

/-- The first (highest bandwidth) variant URL of the master playlist. -/
def v1Url : Str := "http://h/v1.m3u8".toList

/-- The raw text of the master playlist. -/
def bodyM : Str := "#EXTM3U\nv1.m3u8".toList

/-- The raw text of the first variant's media playlist. -/
def bodyV1 : Str := "#EXTM3U\nseg1.ts".toList

/-- The HLS manifest content type. -/
def ctHls : Str := "application/vnd.apple.mpegurl".toList

/-- The m3u8 parse of the master playlist: two variants at bandwidths
2000000 (audio group en) and 1000000 (audio group fr2). -/
def plM : M3U8Playlist :=
  ⟨[⟨v1Url, some 2000000, none, some "en".toList⟩,
    ⟨"http://h/v2.m3u8".toList, some 1000000, none, some "fr2".toList⟩], []⟩

/-- The m3u8 parse of a media playlist: no variant entries. -/
def plMedia : M3U8Playlist := ⟨[], []⟩

/-- An upstream 404 response with a video content type and no declared
length. -/
def resp404 : UpResp := ⟨404, some "video/mp4".toList, none, none, none, []⟩

/-- An upstream world whose every GET answers 404 with a video content
type and no declared length. -/
def env404 : Env :=
  ⟨fun _ _ => .ok resp404, fun _ => .failure, fun _ => none, fun _ => none⟩

/-- An upstream world serving the master playlist at mUrl and the media
playlist at v1Url. -/
def envC2 : Env :=
  ⟨fun u _ =>
      if u = mUrl then .ok ⟨200, some ctHls, none, none, none, bodyM⟩
      else if u = v1Url then .ok ⟨200, some ctHls, none, none, none, bodyV1⟩
      else .failure,
   fun _ => .failure,
   fun b =>
      if b = bodyM then some plM
      else if b = bodyV1 then some plMedia else none,
   fun _ => none⟩

/-- The HLSInfo parse_hls_playlist builds for mUrl in envC2. -/
def infoM : HLSInfo :=
  ⟨[⟨v1Url, some 2000000, none, some "en".toList⟩,
    ⟨"http://h/v2.m3u8".toList, some 1000000, none, some "fr2".toList⟩],
   [], [], true, mUrl⟩

/-- URLs of a nested-master chain: aU is a master whose variant is bU,
bU is a master whose variant is cU, and cU is a media playlist. -/
def aU : Str := "http://h/a.m3u8".toList

/-- The middle (nested master) URL of the chain. -/
def bU : Str := "http://h/b.m3u8".toList

/-- The terminal media playlist URL of the chain. -/
def cU : Str := "http://h/c.m3u8".toList

/-- Raw text of the chain's first master. -/
def bodyA : Str := "A".toList

/-- Raw text of the chain's nested master. -/
def bodyB : Str := "B".toList

/-- Raw text of the chain's media playlist. -/
def bodyC : Str := "#EXTM3U\nseg.ts".toList

/-- An upstream world with a Master that points to a second Master that
points to a Media playlist. -/
def chainEnv : Env :=
  ⟨fun u _ =>
      if u = aU then .ok ⟨200, some ctHls, none, none, none, bodyA⟩
      else if u = bU then .ok ⟨200, some ctHls, none, none, none, bodyB⟩
      else if u = cU then .ok ⟨200, some ctHls, none, none, none, bodyC⟩
      else .failure,
   fun _ => .failure,
   fun b =>
      if b = bodyA then some ⟨[⟨bU, some 500, none, none⟩], []⟩
      else if b = bodyB then some ⟨[⟨cU, some 400, none, none⟩], []⟩
      else if b = bodyC then some plMedia else none,
   fun _ => none⟩

/-- An upstream world whose master playlist's only variant is the master
itself: a cyclic chain of Master manifests. -/
def loopEnv : Env :=
  ⟨fun u _ => if u = aU then .ok ⟨200, some ctHls, none, none, none, bodyA⟩
              else .failure,
   fun _ => .failure,
   fun b => if b = bodyA then some ⟨[⟨aU, some 500, none, none⟩], []⟩ else none,
   fun _ => none⟩

/-- An upstream world serving only the master playlist (for the audio
variant route). -/
def envC6 : Env :=
  ⟨fun u _ => if u = mUrl then .ok ⟨200, some ctHls, none, none, none, bodyM⟩
              else .failure,
   fun _ => .failure,
   fun b => if b = bodyM then some plM else none,
   fun _ => none⟩


/-- The upstream response declaring a 20 GB Content-Length on a 404. -/
def resp7 : UpResp :=
  ⟨404, some "video/mp4".toList, some "20000000000".toList, none, none, []⟩

/-- An upstream world answering 404 with a declared 20 GB Content-Length. -/
def env7 : Env := ⟨fun _ _ => .ok resp7, fun _ => .failure, fun _ => none, fun _ => none⟩

/-- An upstream world answering 200 with a declared 20 GB Content-Length. -/
def env7ok : Env :=
  ⟨fun _ _ => .ok ⟨200, some "video/mp4".toList, some "20000000000".toList, none, none, []⟩,
   fun _ => .failure, fun _ => none, fun _ => none⟩

/-- A world where the HEAD probe succeeds and ffprobe reports one video
stream whose r_frame_rate is the string 0/0 (ffprobe emits this for
streams with an unknown frame rate, such as cover-art streams). -/
def env9 : Env :=
  ⟨fun _ _ => .failure,
   fun u => if u = dUrl
            then .ok ⟨200, some "video/mp4".toList, some "100".toList, none, none, []⟩
            else .failure,
   fun _ => none,
   fun u => if u = dUrl then some ⟨[⟨some "video".toList, some "0/0".toList⟩]⟩ else none⟩

/-- The same world as env9 but with the ffprobe call failing entirely. -/
def env9none : Env :=
  ⟨fun _ _ => .failure,
   fun u => if u = dUrl
            then .ok ⟨200, some "video/mp4".toList, some "100".toList, none, none, []⟩
            else .failure,
   fun _ => none,
   fun _ => none⟩

/-- The m3u8 parse of the specification's three-variant master playlist,
listed in appearance order 500000, 2000000, 1200000. -/
def pl5 : M3U8Playlist :=
  ⟨[⟨"http://h/lo.m3u8".toList, some 500000, none, none⟩,
    ⟨"http://h/hi.m3u8".toList, some 2000000, none, none⟩,
    ⟨"http://h/mid.m3u8".toList, some 1200000, none, none⟩], []⟩

/-- Raw text of the specification's three-variant master playlist. -/
def body5 : Str := "FIVE".toList

/-- An upstream world serving the three-variant master playlist at mUrl. -/
def env5 : Env :=
  ⟨fun u _ => if u = mUrl then .ok ⟨200, some ctHls, none, none, none, body5⟩
              else .failure,
   fun _ => .failure,
   fun b => if b = body5 then some pl5 else none,
   fun _ => none⟩

/-- The HLSInfo parse_hls_playlist builds for mUrl in env5: variants
sorted by descending bandwidth. -/
def info5 : HLSInfo :=
  ⟨[⟨"http://h/hi.m3u8".toList, some 2000000, none, none⟩,
    ⟨"http://h/mid.m3u8".toList, some 1200000, none, none⟩,
    ⟨"http://h/lo.m3u8".toList, some 500000, none, none⟩],
   [], [], true, mUrl⟩

/-- The base URL of the specification's rewriting example. -/
def specBase : Str := "http://origin/path/index.m3u8".toList

/-- The media playlist text of the specification's rewriting example. -/
def specContent : Str :=
  "#EXTINF:9.0,\nsegment1.ts\n#EXTINF:9.0,\nhttp://cdn/seg2.ts".toList

section SortLemmas

variable {α : Type} (key : α → Nat)

/-- Membership in an insertion is membership in the inserted element or the
original list. -/
theorem mem_insDesc (x : α) (l : List α) (a : α) :
    a ∈ insDesc key x l ↔ a = x ∨ a ∈ l := by
  induction l with
  | nil => simp [insDesc]
  | cons y ys ih =>
    by_cases h : key x < key y
    · rw [insDesc, if_pos h]
      simp only [List.mem_cons, ih]
      tauto
    · rw [insDesc, if_neg h]
      simp only [List.mem_cons]

/-- Insertion preserves descending sortedness. -/
theorem pairwise_insDesc (x : α) (l : List α)
    (h : l.Pairwise (fun a b => key b ≤ key a)) :
    (insDesc key x l).Pairwise (fun a b => key b ≤ key a) := by
  induction l with
  | nil => simp [insDesc]
  | cons y ys ih =>
    rcases List.pairwise_cons.mp h with ⟨hy, hys⟩
    by_cases hk : key x < key y
    · rw [insDesc, if_pos hk]
      refine List.pairwise_cons.mpr ⟨?_, ih hys⟩
      intro z hz
      rcases (mem_insDesc key x ys z).mp hz with rfl | hzys
      · exact Nat.le_of_lt hk
      · exact hy z hzys
    · rw [insDesc, if_neg hk]
      refine List.pairwise_cons.mpr ⟨?_, h⟩
      intro z hz
      rcases List.mem_cons.mp hz with rfl | hz
      · exact Nat.le_of_not_lt hk
      · exact le_trans (hy z hz) (Nat.le_of_not_lt hk)

/-- The sort produces a list sorted by key, descending. -/
theorem pySortDesc_pairwise (l : List α) :
    (pySortDesc key l).Pairwise (fun a b => key b ≤ key a) := by
  induction l with
  | nil => simp [pySortDesc]
  | cons x xs ih => exact pairwise_insDesc key x _ ih

/-- Filtering at one key value commutes with insertion: the inserted element
goes in front of the equal-key block. -/
theorem filter_insDesc (v : Nat) (x : α) (l : List α) :
    (insDesc key x l).filter (fun y => key y == v)
      = if key x = v then x :: l.filter (fun y => key y == v)
        else l.filter (fun y => key y == v) := by
  induction l with
  | nil =>
    by_cases h : key x = v <;> simp [insDesc, List.filter_cons, h]
  | cons y ys ih =>
    by_cases hk : key x < key y
    · rw [insDesc, if_pos hk]
      by_cases hv : key x = v
      · have hyv : ¬ (key y = v) := by omega
        simp [List.filter_cons, hv, hyv, ih]
      · by_cases hyv : key y = v <;> simp [List.filter_cons, hv, hyv, ih]
    · rw [insDesc, if_neg hk]
      by_cases hv : key x = v <;> simp [List.filter_cons, hv]

/-- Stability of the sort: at every key value the sorted list carries
exactly the original elements in their original order. -/
theorem pySortDesc_filter (v : Nat) (l : List α) :
    (pySortDesc key l).filter (fun y => key y == v)
      = l.filter (fun y => key y == v) := by
  induction l with
  | nil => rfl
  | cons x xs ih =>
    rw [pySortDesc, filter_insDesc, ih]
    by_cases hv : key x = v <;> simp [List.filter_cons, hv]

/-- Insertion permutes consing. -/
theorem perm_insDesc (x : α) (l : List α) :
    (insDesc key x l).Perm (x :: l) := by
  induction l with
  | nil => exact List.Perm.refl _
  | cons y ys ih =>
    by_cases hk : key x < key y
    · rw [insDesc, if_pos hk]
      exact (ih.cons y).trans (List.Perm.swap x y ys)
    · rw [insDesc, if_neg hk]

/-- The sort permutes its input. -/
theorem pySortDesc_perm (l : List α) : (pySortDesc key l).Perm l := by
  induction l with
  | nil => exact List.Perm.refl _
  | cons x xs ih => exact (perm_insDesc key x (pySortDesc key xs)).trans (ih.cons x)

/-- The head of the sorted list carries a maximal key. -/
theorem pySortDesc_head_max (l : List α) (v0 : α)
    (h : (pySortDesc key l).head? = some v0) :
    ∀ v ∈ l, key v ≤ key v0 := by
  intro v hv
  have hmem : v ∈ pySortDesc key l := (pySortDesc_perm key l).mem_iff.mpr hv
  cases hs : pySortDesc key l with
  | nil => rw [hs] at hmem; cases hmem
  | cons z zs =>
    rw [hs] at h
    injection h with h0
    subst h0
    have hp := pySortDesc_pairwise key l
    rw [hs] at hp hmem
    rcases List.pairwise_cons.mp hp with ⟨hz, _⟩
    rcases List.mem_cons.mp hmem with rfl | hmem2
    · exact le_refl _
    · exact hz v hmem2

end SortLemmas

section SplitJoinLemmas

/-- splitOnChar always yields at least one piece. -/
theorem splitOnChar_ne_nil (sep : Char) (s : Str) : splitOnChar sep s ≠ [] := by
  induction s with
  | nil => simp [splitOnChar]
  | cons c cs ih =>
    by_cases h : c = sep
    · simp [splitOnChar, h]
    · rw [splitOnChar, if_neg h]
      cases hs : splitOnChar sep cs with
      | nil => exact absurd hs ih
      | cons l ls => simp

/-- No piece of splitOnChar contains the separator. -/
theorem mem_splitOnChar_not_mem {sep : Char} {s : Str} {l : Str}
    (h : l ∈ splitOnChar sep s) : sep ∉ l := by
  induction s generalizing l with
  | nil =>
    rw [splitOnChar] at h
    rcases List.mem_singleton.mp h with rfl
    simp
  | cons c cs ih =>
    by_cases hc : c = sep
    · rw [splitOnChar, if_pos hc] at h
      rcases List.mem_cons.mp h with rfl | h2
      · simp
      · exact ih h2
    · rw [splitOnChar, if_neg hc] at h
      cases hs : splitOnChar sep cs with
      | nil => exact absurd hs (splitOnChar_ne_nil sep cs)
      | cons m ms =>
        rw [hs] at h
        rcases List.mem_cons.mp h with rfl | h2
        · intro hmem
          rcases List.mem_cons.mp hmem with rfl | hmem2
          · exact hc rfl
          · exact ih (hs ▸ List.mem_cons_self m ms) hmem2
        · exact ih (hs ▸ List.mem_cons_of_mem m h2)

/-- A separator-free string splits into itself. -/
theorem splitOnChar_of_not_mem {sep : Char} {l : Str} (h : sep ∉ l) :
    splitOnChar sep l = [l] := by
  induction l with
  | nil => rfl
  | cons c cs ih =>
    have hc : ¬ c = sep := fun he => h (he ▸ List.mem_cons_self c cs)
    have hcs : sep ∉ cs := fun hm => h (List.mem_cons_of_mem c hm)
    rw [splitOnChar, if_neg hc, ih hcs]

/-- Splitting after a separator-free prefix peels that prefix off. -/
theorem splitOnChar_append {sep : Char} {l : Str} (rest : Str) (h : sep ∉ l) :
    splitOnChar sep (l ++ sep :: rest) = l :: splitOnChar sep rest := by
  induction l with
  | nil => simp [splitOnChar]
  | cons c cs ih =>
    have hc : ¬ c = sep := fun he => h (he ▸ List.mem_cons_self c cs)
    have hcs : sep ∉ cs := fun hm => h (List.mem_cons_of_mem c hm)
    rw [List.cons_append, splitOnChar, if_neg hc, ih hcs]

/-- joinChar is a left inverse of splitOnChar on separator-free pieces. -/
theorem splitOnChar_joinChar {sep : Char} {ls : List Str} (hne : ls ≠ [])
    (h : ∀ l ∈ ls, sep ∉ l) : splitOnChar sep (joinChar sep ls) = ls := by
  induction ls with
  | nil => exact absurd rfl hne
  | cons l ls ih =>
    cases ls with
    | nil =>
      rw [joinChar]
      exact splitOnChar_of_not_mem (h l (List.mem_cons_self l []))
    | cons l2 ls2 =>
      rw [joinChar, splitOnChar_append _ (h l (List.mem_cons_self l _))]
      · rw [ih (List.cons_ne_nil l2 ls2) (fun x hx => h x (List.mem_cons_of_mem l hx))]
      · exact List.cons_ne_nil l2 ls2

end SplitJoinLemmas

section QuoteLemmas

set_option maxRecDepth 2000 in
/-- A byte below 256 never encodes to a newline. -/
theorem quoteByte_no_newline : ∀ b : Nat, b < 256 → '\n' ∉ quoteByte b := by
  decide

/-- UTF-8 encoding produces bytes below 256. -/
theorem utf8Bytes_lt_256 (c : Char) : ∀ b ∈ utf8Bytes c, b < 256 := by
  intro b hb
  have hc : c.toNat < 1114112 := by
    rcases c.valid with h | h
    · exact Nat.lt_trans h (by norm_num)
    · exact h.2
  rw [utf8Bytes] at hb
  by_cases h1 : c.toNat < 128
  · rw [if_pos h1] at hb
    rcases List.mem_singleton.mp hb with rfl
    omega
  · rw [if_neg h1] at hb
    by_cases h2 : c.toNat < 2048
    · rw [if_pos h2] at hb
      simp only [List.mem_cons, List.mem_singleton, List.not_mem_nil, or_false] at hb
      rcases hb with rfl | rfl <;> omega
    · rw [if_neg h2] at hb
      by_cases h3 : c.toNat < 65536
      · rw [if_pos h3] at hb
        simp only [List.mem_cons, List.not_mem_nil, or_false] at hb
        rcases hb with rfl | rfl | rfl <;> omega
      · rw [if_neg h3] at hb
        simp only [List.mem_cons, List.not_mem_nil, or_false] at hb
        rcases hb with rfl | rfl | rfl | rfl <;> omega

/-- Percent encoding never emits a newline. -/
theorem pyQuote_no_newline (s : Str) : '\n' ∉ pyQuote s := by
  intro hmem
  rw [pyQuote] at hmem
  rcases List.mem_flatten.mp hmem with ⟨piece, hpiece, hcm⟩
  rcases List.mem_map.mp hpiece with ⟨b, hbm, rfl⟩
  rcases List.mem_flatten.mp hbm with ⟨bytes, hbytes, hbb⟩
  rcases List.mem_map.mp hbytes with ⟨c, _, rfl⟩
  exact quoteByte_no_newline b (utf8Bytes_lt_256 c b hbb) hcm

/-- Stripping only removes characters. -/
theorem pyStrip_sublist (l : Str) : (pyStrip l).Sublist l := by
  rw [pyStrip]
  have h1 : (l.dropWhile pySpace).Sublist l := List.dropWhile_sublist pySpace
  have h2 : (((l.dropWhile pySpace).reverse.dropWhile pySpace)).Sublist
      (l.dropWhile pySpace).reverse := List.dropWhile_sublist pySpace
  have h3 := h2.reverse
  rw [List.reverse_reverse] at h3
  exact h3.trans h1

/-- Line rewriting never introduces a newline into a newline-free line. -/
theorem rewriteLine_no_newline (url line : Str) (h : '\n' ∉ line) :
    '\n' ∉ rewriteLine url line := by
  have hstrip : '\n' ∉ pyStrip line := fun hm => h ((pyStrip_sublist line).subset hm)
  rw [rewriteLine]
  by_cases hc : (!(pyStrip line).isEmpty && !("#".toList.isPrefixOf (pyStrip line))) = true
  · rw [if_pos hc]
    intro hm
    rcases List.mem_append.mp hm with hm1 | hm2
    · simp at hm1
    · exact pyQuote_no_newline _ hm2
  · rw [if_neg hc]
    exact hstrip

end QuoteLemmas

section ParseLemmas

/-- Closed form of parse_hls_playlist on a successful fetch and parse. -/
theorem parse_hls_eq (env : Env) (url : Str) (r : UpResp) (pl : M3U8Playlist)
    (h1 : env.fetch url none = .ok r) (h2 : ¬ 400 ≤ r.status)
    (h3 : env.loads r.body = some pl) :
    parse_hls_playlist env url = some
      { variants := pySortDesc bwKey (pl.playlists.map (mkVariant url))
        audio_tracks := (pl.media.filter (fun m => m.type == "AUDIO".toList)).map
          (mkAudioTrack url)
        subtitles := (pl.media.filter (fun m => m.type == "SUBTITLES".toList)).map
          (mkSubtitleTrack url)
        is_master := !(pySortDesc bwKey (pl.playlists.map (mkVariant url))).isEmpty
        master_url := url } := by
  simp only [parse_hls_playlist, h1, h3, if_neg h2]

/-- The master flag of every parse result is the non-emptiness of its
variant list. -/
theorem parse_is_master (env : Env) (url : Str) (info : HLSInfo)
    (h : parse_hls_playlist env url = some info) :
    info.is_master = !info.variants.isEmpty := by
  rw [parse_hls_playlist] at h
  split at h
  · exact absurd h (by simp)
  · exact absurd h (by simp)
  · split at h
    · exact absurd h (by simp)
    · split at h
      · exact absurd h (by simp)
      · injection h with h0
        rw [← h0]

/-- A selected variant can only come from a non-empty list. -/
theorem selectVariant_ne_nil (vs : List Variant) (q : Option Str) (v : Variant)
    (h : selectVariant vs q = some v) : vs ≠ [] := by
  intro he
  subst he
  cases q with
  | none => simp [selectVariant] at h
  | some t =>
    rw [selectVariant] at h
    by_cases ht : t.isEmpty
    · simp [ht] at h
    · simp [ht] at h

end ParseLemmas

/-- C5. For every parsed Master manifest, the returned variant list is
sorted by bandwidth in descending order, the sort is stable (variants with
equal bandwidth keep their original appearance order, stated as filter
preservation against the list built in appearance order), and the variant
at index 0 has the highest bandwidth. -/
theorem C5_variant_ordering (env : Env) (url : Str) (r : UpResp)
    (pl : M3U8Playlist) (info : HLSInfo)
    (h1 : env.fetch url none = .ok r) (h2 : ¬ 400 ≤ r.status)
    (h3 : env.loads r.body = some pl)
    (h4 : parse_hls_playlist env url = some info) :
    info.variants.Pairwise (fun a b => bwKey b ≤ bwKey a)
    ∧ (∀ k : Nat, info.variants.filter (fun v => bwKey v == k)
        = (pl.playlists.map (mkVariant url)).filter (fun v => bwKey v == k))
    ∧ (∀ v0, info.variants.head? = some v0 →
        ∀ v ∈ info.variants, bwKey v ≤ bwKey v0) := by
  rw [parse_hls_eq env url r pl h1 h2 h3] at h4
  injection h4 with h0
  rw [← h0]
  refine ⟨pySortDesc_pairwise bwKey _, fun k => pySortDesc_filter bwKey k _, ?_⟩
  intro v0 hh v hv
  exact pySortDesc_head_max bwKey _ v0 hh v
    ((pySortDesc_perm bwKey _).mem_iff.mp hv)

/-- Witness for C5 at the specification example: appearance order 500000,
2000000, 1200000 parses to the descending order 2000000, 1200000, 500000,
stability holds at the 2000000 slot, and the low variant's bandwidth is
bounded by the head's. -/
theorem C5_variant_ordering_witness :
    info5.variants.Pairwise (fun a b => bwKey b ≤ bwKey a)
    ∧ info5.variants.filter (fun v => bwKey v == 2000000)
        = (pl5.playlists.map (mkVariant mUrl)).filter (fun v => bwKey v == 2000000)
    ∧ bwKey (⟨"http://h/lo.m3u8".toList, some 500000, none, none⟩ : Variant)
        ≤ bwKey (⟨"http://h/hi.m3u8".toList, some 2000000, none, none⟩ : Variant) := by
  have h := C5_variant_ordering env5 mUrl
    ⟨200, some ctHls, none, none, none, body5⟩ pl5 info5
    (by decide) (by decide) (by decide) (by decide)
  exact ⟨h.1, h.2.1 2000000,
    h.2.2 ⟨"http://h/hi.m3u8".toList, some 2000000, none, none⟩ (by decide)
      ⟨"http://h/lo.m3u8".toList, some 500000, none, none⟩ (by decide)⟩

/-- C1 (amended). For every /stream request for a direct URL whose upstream
fetch succeeds and passes the size gate, the proxy relays the body with the
negotiated status: 200 and 206 are forwarded exactly, and every other
upstream status is coerced to 200 (a success), never surfaced as a 502
abort. -/
theorem C1_direct_status_amended (env : Env) (url : Str) (range : Option Str)
    (r : UpResp)
    (h1 : env.fetch url range = .ok r)
    (h2 : contentLengthExceeds r.contentLength = false) :
    stream_direct env url range = .relay (negotiatedStatus r.status)
      { contentType := r.contentType.getD "application/octet-stream".toList
        acceptRanges := "bytes".toList
        cacheControl := "no-cache".toList
        contentLength := r.contentLength
        contentRange := r.contentRange
        contentDisposition := r.contentDisposition }
    ∧ ((r.status = 200 ∨ r.status = 206) → negotiatedStatus r.status = r.status)
    ∧ (¬(r.status = 200 ∨ r.status = 206) → negotiatedStatus r.status = 200)
    ∧ (∀ s : Nat, stream_direct env url range ≠ .directAbort s) := by
  have hmain : stream_direct env url range = .relay (negotiatedStatus r.status)
      { contentType := r.contentType.getD "application/octet-stream".toList
        acceptRanges := "bytes".toList
        cacheControl := "no-cache".toList
        contentLength := r.contentLength
        contentRange := r.contentRange
        contentDisposition := r.contentDisposition } := by
    simp only [stream_direct, h1, h2, Bool.false_eq_true, if_false]
  refine ⟨hmain, fun h => by rw [negotiatedStatus, if_pos h],
    fun h => by rw [negotiatedStatus, if_neg h], ?_⟩
  intro st hcontra
  rw [hmain] at hcontra
  exact DirectResult.noConfusion hcontra

/-- Witness for C1 at the 404 world: the fetch succeeds, the size gate
passes, and the relay carries status 200 with no abort. -/
theorem C1_direct_status_witness :
    stream_direct env404 dUrl none = .relay (negotiatedStatus resp404.status)
      { contentType := resp404.contentType.getD "application/octet-stream".toList
        acceptRanges := "bytes".toList
        cacheControl := "no-cache".toList
        contentLength := resp404.contentLength
        contentRange := resp404.contentRange
        contentDisposition := resp404.contentDisposition }
    ∧ negotiatedStatus resp404.status = 200
    ∧ stream_direct env404 dUrl none ≠ .directAbort 502 := by
  have h := C1_direct_status_amended env404 dUrl none resp404 (by decide) (by decide)
  exact ⟨h.1, h.2.2.1 (by decide), h.2.2.2 502⟩

/-- Counterexample to C1 as stated: with the upstream answering 404, the
proxy relays a success status 200 to the client instead of failing with
UpstreamStatus(404) mapped to 502. -/
theorem C1_counterexample :
    env404.fetch dUrl none = .ok resp404
    ∧ resp404.status = 404
    ∧ stream_direct env404 dUrl none
        = .relay 200 ⟨"video/mp4".toList, "bytes".toList, "no-cache".toList,
            none, none, none⟩
    ∧ stream_direct env404 dUrl none ≠ .directAbort 502 := by decide

/-- C7 (amended). The size ceiling: stream_direct aborts 413 whenever the
upstream response declares a Content-Length above the ceiling, before any
body is relayed; download does so only after its 200/206 status gate; and
with no declared Content-Length the ceiling is not enforced pre-flight and
both relays proceed. -/
theorem C7_size_ceiling_amended (env : Env) :
    (∀ (url : Str) (range : Option Str) (r : UpResp),
        env.fetch url range = .ok r →
        contentLengthExceeds r.contentLength = true →
        stream_direct env url range = .directAbort 413)
    ∧ (∀ (urlParam : Option Str) (r : UpResp),
        is_valid_url (pyStrip (urlParam.getD [])) = true →
        is_hls_url (pyStrip (urlParam.getD [])) = false →
        env.fetch (pyStrip (urlParam.getD [])) none = .ok r →
        (r.status = 200 ∨ r.status = 206) →
        contentLengthExceeds r.contentLength = true →
        download env urlParam = .dlAbort 413)
    ∧ (∀ (url : Str) (range : Option Str) (r : UpResp),
        env.fetch url range = .ok r →
        r.contentLength = none →
        stream_direct env url range = .relay (negotiatedStatus r.status)
          { contentType := r.contentType.getD "application/octet-stream".toList
            acceptRanges := "bytes".toList
            cacheControl := "no-cache".toList
            contentLength := r.contentLength
            contentRange := r.contentRange
            contentDisposition := r.contentDisposition })
    ∧ (∀ (urlParam : Option Str) (r : UpResp),
        is_valid_url (pyStrip (urlParam.getD [])) = true →
        is_hls_url (pyStrip (urlParam.getD [])) = false →
        env.fetch (pyStrip (urlParam.getD [])) none = .ok r →
        (r.status = 200 ∨ r.status = 206) →
        r.contentLength = none →
        download env urlParam = .attachment (dlFilename (pyStrip (urlParam.getD [])))
          (r.contentType.getD "video/mp4".toList) none) := by
  refine ⟨?_, ?_, ?_, ?_⟩
  · intro url range r h1 h2
    simp only [stream_direct, h1, h2, if_true]
  · intro urlParam r hv hh h1 hs h2
    simp only [download, hv, hh, h1, Bool.not_true, Bool.false_eq_true, if_false,
      Bool.not_false, if_neg (not_not_intro hs), h2, if_true]
  · intro url range r h1 h2
    have hz : contentLengthExceeds r.contentLength = false := by
      rw [h2]; rfl
    simp only [stream_direct, h1, hz, Bool.false_eq_true, if_false]
  · intro urlParam r hv hh h1 hs h2
    have hz : contentLengthExceeds r.contentLength = false := by
      rw [h2]; rfl
    simp only [download, hv, hh, h1, Bool.not_true, Bool.false_eq_true, if_false,
      Bool.not_false, if_neg (not_not_intro hs), hz, h2]
    rw [if_neg (by decide)]

/-- Witness for C7: a 200 upstream declaring 20 GB aborts 413 on both
relays, and the 404 world with no declared length proceeds to a relay. -/
theorem C7_size_ceiling_witness :
    stream_direct env7ok dUrl none = .directAbort 413
    ∧ download env7ok (some dUrl) = .dlAbort 413
    ∧ stream_direct env404 dUrl none = .relay (negotiatedStatus resp404.status)
      { contentType := resp404.contentType.getD "application/octet-stream".toList
        acceptRanges := "bytes".toList
        cacheControl := "no-cache".toList
        contentLength := resp404.contentLength
        contentRange := resp404.contentRange
        contentDisposition := resp404.contentDisposition } := by
  refine ⟨(C7_size_ceiling_amended env7ok).1 dUrl none
      ⟨200, some "video/mp4".toList, some "20000000000".toList, none, none, []⟩
      (by decide) (by decide),
    (C7_size_ceiling_amended env7ok).2.1 (some dUrl)
      ⟨200, some "video/mp4".toList, some "20000000000".toList, none, none, []⟩
      (by decide) (by decide) (by decide) (by decide) (by decide),
    (C7_size_ceiling_amended env404).2.2.1 dUrl none resp404 (by decide) (by decide)⟩

/-- Counterexample to C7 as stated: a download whose upstream response
declares a 20 GB Content-Length but carries status 404 aborts with 502,
not with ResourceTooLarge 413. -/
theorem C7_counterexample :
    resp7.contentLength = some "20000000000".toList
    ∧ contentLengthExceeds resp7.contentLength = true
    ∧ resp7.status = 404
    ∧ download env7 (some dUrl) = .dlAbort 502
    ∧ download env7 (some dUrl) ≠ .dlAbort 413 := by decide

/-- C10. In /api/get-audio-variant, only a missing or empty url or audio
parameter yields HTTP 400; once both parameters are non-empty the result
is never a 400, and both a playlist parse failure and an empty variant
list yield HTTP 502, because the handler's internal 400 aborts are raised
inside its blanket except clause and converted to 502. -/
theorem C10_audio_variant_statuses (env : Env) (urlParam audioParam : Option Str) :
    (((pyStrip (urlParam.getD [])).isEmpty
        || (pyStrip (audioParam.getD [])).isEmpty) = true →
      get_audio_variant env urlParam audioParam = .avAbort 400)
    ∧ (((pyStrip (urlParam.getD [])).isEmpty
        || (pyStrip (audioParam.getD [])).isEmpty) = false →
        get_audio_variant env urlParam audioParam ≠ .avAbort 400
        ∧ (parse_hls_playlist env (pyStrip (urlParam.getD [])) = none →
            get_audio_variant env urlParam audioParam = .avAbort 502)
        ∧ (∀ info, parse_hls_playlist env (pyStrip (urlParam.getD [])) = some info →
            info.variants = [] →
            get_audio_variant env urlParam audioParam = .avAbort 502)) := by
  constructor
  · intro h
    simp only [get_audio_variant, h, if_true]
  · intro h
    have hbody : get_audio_variant env urlParam audioParam
        = match get_audio_variant_body env (pyStrip (urlParam.getD []))
            (pyStrip (audioParam.getD [])) with
          | .ok r => .ok r
          | .error _ => .avAbort 502 := by
      simp only [get_audio_variant, h, Bool.false_eq_true, if_false]
    refine ⟨?_, ?_, ?_⟩
    · rw [hbody]
      cases get_audio_variant_body env (pyStrip (urlParam.getD []))
          (pyStrip (audioParam.getD [])) with
      | ok r => exact fun hc => AVResult.noConfusion hc
      | error e =>
        intro hc
        injection hc with h0
        exact absurd h0 (by decide)
    · intro hp
      rw [hbody, get_audio_variant_body, hp]
    · intro info hp hvars
      rw [hbody, get_audio_variant_body, hp]
      simp [hvars]

/-- Witness for C10: an all-whitespace audio parameter is a 400; a parse
failure behind non-empty parameters is a 502; an empty variant list behind
non-empty parameters is a 502. -/
theorem C10_audio_variant_witness :
    get_audio_variant envC6 (some mUrl) (some "  ".toList) = .avAbort 400
    ∧ get_audio_variant envC6 (some "http://h/x.m3u8".toList) (some "en".toList)
        = .avAbort 502
    ∧ get_audio_variant envC2 (some v1Url) (some "en".toList) = .avAbort 502 := by
  refine ⟨(C10_audio_variant_statuses envC6 (some mUrl) (some "  ".toList)).1
      (by decide),
    ((C10_audio_variant_statuses envC6 (some "http://h/x.m3u8".toList)
        (some "en".toList)).2 (by decide)).2.1 (by decide),
    ((C10_audio_variant_statuses envC2 (some v1Url) (some "en".toList)).2
        (by decide)).2.2 ⟨[], [], [], false, v1Url⟩ (by decide) rfl⟩

/-- C2 (amended). For a resolved Master manifest, a quality token selects
the first variant whose bandwidth stringifies to an exact match, and a
missing (or empty) token selects index 0; but a token matching no variant
selects nothing: the handler then falls through and serves the master
playlist itself, it does not select index 0. -/
theorem C2_variant_selection_amended (env : Env) (fuel : Nat) (url : Str)
    (quality : Option Str) (info : HLSInfo)
    (hp : parse_hls_playlist env url = some info) :
    (selectVariant info.variants quality = none →
      stream_hls env (fuel + 1) url quality = serveResource env url)
    ∧ (∀ v, selectVariant info.variants quality = some v →
      stream_hls env (fuel + 1) url quality = stream_hls env fuel v.url none)
    ∧ (∀ (t : Str) (v0 : Variant), quality = some t → t.isEmpty = false →
        info.variants.head? = some v0 →
        (∀ v ∈ info.variants, pyStrOfBandwidth v.bandwidth ≠ t) →
        selectVariant info.variants quality = none) := by
  refine ⟨?_, ?_, ?_⟩
  · intro hsel
    simp only [stream_hls, hp]
    by_cases hg : (info.is_master && !info.variants.isEmpty) = true
    · rw [if_pos hg, hsel]
    · rw [if_neg hg]
  · intro v hsel
    have hne : info.variants ≠ [] := selectVariant_ne_nil _ _ _ hsel
    have hm : info.is_master = !info.variants.isEmpty :=
      parse_is_master env url info hp
    have hie : info.variants.isEmpty = false := by
      rw [Bool.eq_false_iff]
      intro hc
      exact hne (List.isEmpty_iff.mp hc)
    have hg : (info.is_master && !info.variants.isEmpty) = true := by
      rw [hm, hie]
      rfl
    simp only [stream_hls, hp]
    rw [if_pos hg, hsel]
  · intro t v0 hq hte hh hno
    subst hq
    simp only [selectVariant, hte, Bool.false_eq_true, if_false]
    apply List.find?_eq_none.mpr
    intro x hx
    simp only [beq_iff_eq]
    exact hno x hx

/-- Witness for C2: in the two-variant world, the unmatched token 999
falls through to serving the resource itself, the missing token recurses
into the top variant, and selection with 999 is none. -/
theorem C2_variant_selection_witness :
    stream_hls envC2 1 mUrl (some "999".toList) = serveResource envC2 mUrl
    ∧ stream_hls envC2 1 mUrl none = stream_hls envC2 0 v1Url none
    ∧ selectVariant infoM.variants (some "999".toList) = none := by
  have h := C2_variant_selection_amended envC2 0 mUrl (some "999".toList) infoM
    (by decide)
  have h2 := C2_variant_selection_amended envC2 0 mUrl none infoM (by decide)
  exact ⟨h.1 (by decide),
    h2.2.1 ⟨v1Url, some 2000000, none, some "en".toList⟩ (by decide),
    h.2.2 "999".toList ⟨v1Url, some 2000000, none, some "en".toList⟩ rfl
      (by decide) (by decide) (by decide)⟩

/-- Counterexample to C2 as stated: with a quality token matching no
variant, selection yields nothing and the handler serves the rewritten
master playlist itself, not the index-0 variant (whose resolution serves a
different body). -/
theorem C2_counterexample :
    infoM.variants.head? = some ⟨v1Url, some 2000000, none, some "en".toList⟩
    ∧ selectVariant infoM.variants (some "999".toList) = none
    ∧ stream_hls envC2 2 mUrl (some "999".toList)
        = .playlist (rewritePlaylist mUrl bodyM) ctHls
    ∧ stream_hls envC2 2 mUrl none
        = .playlist (rewritePlaylist v1Url bodyV1) ctHls
    ∧ rewritePlaylist mUrl bodyM ≠ rewritePlaylist v1Url bodyV1 := by decide

/-- C3 (amended). Variant selection recurses into the selected variant's
URL with the quality token cleared, but recursion is not capped at depth
1 and no UnexpectedNestedMaster error exists: a Master whose selected
variant is itself a Master is resolved recursively again, so a cyclic
Master manifest exhausts any recursion budget (the fuel-indexed run never
reaches a response). -/
theorem C3_unbounded_recursion :
    ∀ fuel : Nat, stream_hls loopEnv fuel aU none = .fuelOut := by
  intro fuel
  induction fuel with
  | zero => rfl
  | succ n ih =>
    have hstep : stream_hls loopEnv (n + 1) aU none
        = stream_hls loopEnv n aU none := rfl
    rw [hstep]
    exact ih

/-- Counterexample to C3 as stated: in a chain where the first Master's
variant points to a second Master, the second resolution is classified
Master and yet the handler recurses again and succeeds with the media
playlist two levels down, instead of failing with UnexpectedNestedMaster. -/
theorem C3_counterexample :
    Option.map HLSInfo.is_master (parse_hls_playlist chainEnv aU) = some true
    ∧ Option.map HLSInfo.is_master (parse_hls_playlist chainEnv bU) = some true
    ∧ stream_hls chainEnv 3 aU none = .playlist (rewritePlaylist cU bodyC) ctHls
    ∧ stream_hls chainEnv 2 bU none = .playlist (rewritePlaylist cU bodyC) ctHls
    ∧ stream_hls chainEnv 3 aU none ≠ .hlsAbort 400
    ∧ stream_hls chainEnv 3 aU none ≠ .hlsAbort 502 := by decide

/-- C4 (amended). Rewriting preserves line count and order; each line is
first stripped of surrounding whitespace; a stripped line that is
non-empty and does not start with the hash marker is replaced by the
same-origin proxy path carrying the percent-encoded absolute URL resolved
from the stripped line; every other line is emitted in stripped form
(identical to the original only when it carries no surrounding
whitespace). -/
theorem C4_rewrite_amended (base content : Str) :
    splitOnChar '\n' (rewritePlaylist base content)
      = (splitOnChar '\n' content).map (rewriteLine base)
    ∧ (splitOnChar '\n' (rewritePlaylist base content)).length
      = (splitOnChar '\n' content).length
    ∧ ∀ rawLine : Str,
        (((pyStrip rawLine).isEmpty = false
            ∧ "#".toList.isPrefixOf (pyStrip rawLine) = false) →
          rewriteLine base rawLine
            = "/stream?url=".toList ++ pyQuote (urljoin base (pyStrip rawLine)))
        ∧ (((pyStrip rawLine).isEmpty = true
            ∨ "#".toList.isPrefixOf (pyStrip rawLine) = true) →
          rewriteLine base rawLine = pyStrip rawLine) := by
  have hsplit : splitOnChar '\n' (rewritePlaylist base content)
      = (splitOnChar '\n' content).map (rewriteLine base) := by
    rw [rewritePlaylist]
    apply splitOnChar_joinChar
    · intro he
      exact splitOnChar_ne_nil '\n' content (List.map_eq_nil_iff.mp he)
    · intro l hl
      rcases List.mem_map.mp hl with ⟨l0, hl0, rfl⟩
      exact rewriteLine_no_newline base l0 (mem_splitOnChar_not_mem hl0)
  refine ⟨hsplit, by rw [hsplit, List.length_map], ?_⟩
  intro rawLine
  constructor
  · rintro ⟨h1, h2⟩
    simp only [rewriteLine]
    rw [if_pos]
    rw [h1, h2]
    rfl
  · intro h
    simp only [rewriteLine]
    rw [if_neg]
    rcases h with h | h
    · rw [h]
      simp
    · rw [h]
      simp

/-- Witness for C4 at the specification example: the URI line is replaced
by the proxy path, the directive line passes through (it has no
surrounding whitespace), and the rewritten playlist has the same number of
lines. -/
theorem C4_rewrite_witness :
    rewriteLine specBase "segment1.ts".toList
      = "/stream?url=".toList
          ++ pyQuote (urljoin specBase (pyStrip "segment1.ts".toList))
    ∧ rewriteLine specBase "#EXTINF:9.0,".toList = pyStrip "#EXTINF:9.0,".toList
    ∧ (splitOnChar '\n' (rewritePlaylist specBase specContent)).length
      = (splitOnChar '\n' specContent).length := by
  have h := C4_rewrite_amended specBase specContent
  exact ⟨(h.2.2 "segment1.ts".toList).1 ⟨by decide, by decide⟩,
    (h.2.2 "#EXTINF:9.0,".toList).2 (Or.inr (by decide)), h.2.1⟩

/-- Counterexample to C4 as stated: a directive line with a trailing space
is a line that is either empty or starts with the hash marker, so the
claim says it passes through unmodified, but the rewriter emits it
stripped. -/
theorem C4_counterexample :
    (splitOnChar '\n' "#EXTINF:9.0, \nhttp://cdn/seg2.ts".toList).head?
      = some "#EXTINF:9.0, ".toList
    ∧ rewritePlaylist specBase "#EXTINF:9.0, \nhttp://cdn/seg2.ts".toList
        = "#EXTINF:9.0,\n/stream?url=http%3A%2F%2Fcdn%2Fseg2.ts".toList
    ∧ (splitOnChar '\n'
        (rewritePlaylist specBase "#EXTINF:9.0, \nhttp://cdn/seg2.ts".toList)).head?
      = some "#EXTINF:9.0,".toList
    ∧ "#EXTINF:9.0, ".toList ≠ "#EXTINF:9.0,".toList := by decide

/-- C6 (amended). For an audio-variant lookup with non-empty parameters on
a parsed manifest, the result is the first variant whose audio group
equals the identifier; when no variant matches, the handler falls back to
the variant at index 0 and returns it in the identical response shape,
with no field signalling the fallback, so callers cannot distinguish an
exact match from a fallback. -/
theorem C6_audio_lookup_amended (env : Env) (urlParam audioParam : Option Str)
    (info : HLSInfo)
    (hurl : (pyStrip (urlParam.getD [])).isEmpty = false)
    (haudio : (pyStrip (audioParam.getD [])).isEmpty = false)
    (hp : parse_hls_playlist env (pyStrip (urlParam.getD [])) = some info) :
    (∀ v, info.variants.find?
        (fun w => w.audio == some (pyStrip (audioParam.getD []))) = some v →
      get_audio_variant env urlParam audioParam
        = .ok ⟨v.url, v.bandwidth, v.resolution⟩)
    ∧ (∀ v0 rest, info.variants.find?
        (fun w => w.audio == some (pyStrip (audioParam.getD []))) = none →
      info.variants = v0 :: rest →
      get_audio_variant env urlParam audioParam
        = .ok ⟨v0.url, v0.bandwidth, v0.resolution⟩) := by
  have hcond : ((pyStrip (urlParam.getD [])).isEmpty
      || (pyStrip (audioParam.getD [])).isEmpty) = false := by
    rw [hurl, haudio]
    rfl
  constructor
  · intro v hfind
    simp only [get_audio_variant, hcond, Bool.false_eq_true, if_false,
      get_audio_variant_body, hp, hfind]
  · intro v0 rest hfind hvars
    rw [hvars] at hfind
    simp only [get_audio_variant, hcond, Bool.false_eq_true, if_false,
      get_audio_variant_body, hp, hvars, hfind]

/-- Witness for C6: in the two-variant world, the identifier en matches
the first variant exactly, and the unmatched identifier fr falls back to
the same first variant. -/
theorem C6_audio_lookup_witness :
    get_audio_variant envC6 (some mUrl) (some "en".toList)
      = .ok ⟨v1Url, some 2000000, none⟩
    ∧ get_audio_variant envC6 (some mUrl) (some "fr".toList)
      = .ok ⟨v1Url, some 2000000, none⟩ := by
  have h1 := C6_audio_lookup_amended envC6 (some mUrl) (some "en".toList) infoM
    (by decide) (by decide) (by decide)
  have h2 := C6_audio_lookup_amended envC6 (some mUrl) (some "fr".toList) infoM
    (by decide) (by decide) (by decide)
  exact ⟨h1.1 ⟨v1Url, some 2000000, none, some "en".toList⟩ (by decide),
    h2.2 ⟨v1Url, some 2000000, none, some "en".toList⟩
      [⟨"http://h/v2.m3u8".toList, some 1000000, none, some "fr2".toList⟩]
      (by decide) (by decide)⟩

/-- Counterexample to C6 as stated: no variant carries audio group fr, yet
the response for fr is byte-for-byte the response for the exact match en —
nothing in the result signals the fallback, so callers cannot distinguish
the two. -/
theorem C6_counterexample :
    infoM.variants.all (fun v => v.audio != some "fr".toList) = true
    ∧ get_audio_variant envC6 (some mUrl) (some "fr".toList)
        = .ok ⟨v1Url, some 2000000, none⟩
    ∧ get_audio_variant envC6 (some mUrl) (some "en".toList)
        = .ok ⟨v1Url, some 2000000, none⟩ := by decide

/-- C9. With the HEAD probe succeeding and ffprobe returning well-formed
JSON whose single video stream reports r_frame_rate 0/0 (as ffprobe does
for unknown frame rates), validate raises ZeroDivisionError out of the
handler, because eval('0/0') raises and only requests.RequestException is
caught; the same world with the probe unavailable degrades gracefully to a
success with the enrichment omitted. -/
theorem C9_probe_crash :
    validate env9 (some dUrl) = .unhandled .zeroDivision
    ∧ validate env9none (some dUrl) = .okDirect false
    ∧ env9.probe dUrl = some ⟨[⟨some "video".toList, some "0/0".toList⟩]⟩ := by
  decide

/-- C8 (amended). The validator accepts a string exactly when urlparse
does not raise (the netloc's square brackets are balanced), the parsed
scheme is http or https, and the netloc (authority) is non-empty — the
host proper may still be empty, as in http://:80/x; every rejected input
is answered 400 by /stream, /download and /api/validate without touching
the upstream environment (no network call). -/
theorem C8_validator_amended :
    (∀ u : Str, is_valid_url u = true ↔
      (bracketMismatch (urlNetloc u) = false
        ∧ (urlScheme u = "http".toList ∨ urlScheme u = "https".toList)
        ∧ urlNetloc u ≠ []))
    ∧ (∀ (env env2 : Env) (fuel : Nat) (urlParam quality range : Option Str),
        is_valid_url (pyStrip (urlParam.getD [])) = false →
        stream env fuel urlParam quality range = .invalid
        ∧ stream env fuel urlParam quality range
            = stream env2 fuel urlParam quality range
        ∧ download env urlParam = .dlAbort 400
        ∧ validate env urlParam = .invalid 400) := by
  constructor
  · intro u
    by_cases he : u.isEmpty = true
    · have hu : u = [] := List.isEmpty_iff.mp he
      subst hu
      decide
    · by_cases hb : bracketMismatch (urlNetloc u) = true
      · simp [is_valid_url, he, hb]
      · rw [Bool.not_eq_true] at hb
        rw [is_valid_url, if_neg he, if_neg (by rw [hb]; exact Bool.false_ne_true)]
        simp [hb, Bool.and_eq_true, Bool.or_eq_true, beq_iff_eq,
          Bool.not_eq_true', List.isEmpty_iff]
  · intro env env2 fuel urlParam quality range h
    refine ⟨?_, ?_, ?_, ?_⟩
    · simp only [stream, h, Bool.not_false, if_true]
    · simp only [stream, h, Bool.not_false, if_true]
    · simp only [download, h, Bool.not_false, if_true]
    · simp only [validate, h, Bool.not_false, if_true]

/-- Witness for C8: the iff instantiated at a valid URL, and the rejected
ftp URL answered 400 identically under two different upstream worlds. -/
theorem C8_validator_witness :
    (is_valid_url dUrl = true ↔
      (bracketMismatch (urlNetloc dUrl) = false
        ∧ (urlScheme dUrl = "http".toList ∨ urlScheme dUrl = "https".toList)
        ∧ urlNetloc dUrl ≠ []))
    ∧ stream env404 1 (some "ftp://h/x".toList) none none = .invalid
    ∧ stream env404 1 (some "ftp://h/x".toList) none none
        = stream envC6 1 (some "ftp://h/x".toList) none none
    ∧ download env404 (some "ftp://h/x".toList) = .dlAbort 400
    ∧ validate env404 (some "ftp://h/x".toList) = .invalid 400 := by
  have h2 := C8_validator_amended.2 env404 envC6 1 (some "ftp://h/x".toList)
    none none (by decide)
  exact ⟨C8_validator_amended.1 dUrl, h2.1, h2.2.1, h2.2.2.1, h2.2.2.2⟩

/-- Counterexample to C8 as stated: http://:80/x parses with an empty host
(the authority is only a port), yet the validator accepts it, so
acceptance is not equivalent to a non-empty host component. -/
theorem C8_counterexample :
    is_valid_url "http://:80/x".toList = true
    ∧ urlHost "http://:80/x".toList = []
    ∧ urlNetloc "http://:80/x".toList = ":80".toList := by decide

end StreamProxy
